import Mathlib

/-!
Shallow embedding of the credential-issuance service in `prueba.go`.

Strings are modelled as `List Char` (Go strings are byte sequences iterated
as runes; `golen` below is the UTF-8 byte length that Go's `len` returns,
and the per-rune predicates mirror the Go code on the Latin-1/ASCII range
covered by this embedding).  The in-memory registry (`usuarios`), the two
HTTP handlers (`registroHandler`, `loginHandler`) and the three validators
are translated function by function; the handlers become pure functions
from the registry and the decoded request to a typed outcome together with
the registry after the call.
-/

set_option linter.unusedVariables false

/-- Go strings, modelled as lists of unicode scalar values (runes). -/
abbrev Str := List Char

/-- Number of bytes of the UTF-8 encoding of one rune. -/
def utf8Len (c : Char) : Nat :=
  if c.toNat < 128 then 1
  else if c.toNat < 2048 then 2
  else if c.toNat < 65536 then 3
  else 4

/-- Go's `len` on a string: the byte length of its UTF-8 encoding. -/
def golen (s : Str) : Nat := (s.map utf8Len).sum

/-- Go's `unicode.IsSpace` on the Latin-1 range: space, \t, \n, \v, \f, \r,
NEL (U+0085) and NBSP (U+00A0). -/
def esEspacioGo (c : Char) : Bool :=
  decide (c.toNat = 32 ∨ c.toNat = 9 ∨ c.toNat = 10 ∨ c.toNat = 11 ∨
    c.toNat = 12 ∨ c.toNat = 13 ∨ c.toNat = 133 ∨ c.toNat = 160)

/-- Go's `strings.TrimSpace`: drop leading and trailing white space. -/
def trimSpace (s : Str) : Str :=
  ((s.dropWhile esEspacioGo).reverse.dropWhile esEspacioGo).reverse

/-- Go's `strings.Split` with a one-rune separator: the pieces between the
occurrences of the separator, in order; always at least one piece. -/
def separarEn (sep : Char) : Str → List Str
  | [] => [[]]
  | c :: t =>
    let r := separarEn sep t
    if c = sep then [] :: r
    else (c :: r.headD []) :: r.tail

/-- Character class of the email validator's final scan
(`caracteresValidos` in `validarCorreo`): a-z, A-Z, 0-9, '.', '-', '_', '@'. -/
def esCaracterCorreo (c : Char) : Bool :=
  decide ((97 ≤ c.toNat ∧ c.toNat ≤ 122) ∨ (65 ≤ c.toNat ∧ c.toNat ≤ 90) ∨
    (48 ≤ c.toNat ∧ c.toNat ≤ 57) ∨ c = '.' ∨ c = '-' ∨ c = '_' ∨ c = '@')

/-- Go's `strings.Contains(s, "..")`: two consecutive dots somewhere in `s`. -/
def tieneDosPuntosSeguidos : Str → Bool
  | [] => false
  | [_] => false
  | a :: b :: t => (a == '.' && b == '.') || tieneDosPuntosSeguidos (b :: t)

/-- The extension `dominio[LastIndex(dominio, ".")+1:]` of `validarCorreo`:
the maximal dot-free suffix (for a domain already known to contain a dot,
this is exactly the substring after the last dot; on a dot-free string both
readings give the whole string). -/
def afterLastDot (d : Str) : Str :=
  (d.reverse.takeWhile (fun c => !(c == '.'))).reverse

/-- The local part `partes[0]` computed by `validarCorreo` after trimming
and splitting the input at '@'. -/
def parteLocalDe (s : Str) : Str := (separarEn '@' (trimSpace s)).getD 0 []

/-- The domain `partes[1]` computed by `validarCorreo` after trimming and
splitting the input at '@'. -/
def dominioDe (s : Str) : Str := (separarEn '@' (trimSpace s)).getD 1 []

/-- The extension of the domain computed by `validarCorreo`. -/
def extensionDe (s : Str) : Str := afterLastDot (dominioDe s)

/-- Go `validarCorreo`: trims the input, then applies the code's rejection
tests in source order (each `!decide (...)` conjunct is one `return false`
branch of the Go function), ending with the whole-string character scan. -/
def validarCorreo (correo : Str) : Bool :=
  !decide (trimSpace correo = []) &&
  !decide ((separarEn '@' (trimSpace correo)).length ≠ 2) &&
  !decide (golen (parteLocalDe correo) = 0 ∨ 64 < golen (parteLocalDe correo)) &&
  !decide ((parteLocalDe correo).head? = some '.' ∨ (parteLocalDe correo).getLast? = some '.') &&
  !tieneDosPuntosSeguidos (parteLocalDe correo) &&
  !decide (golen (dominioDe correo) = 0 ∨ 255 < golen (dominioDe correo)) &&
  (dominioDe correo).contains '.' &&
  !decide ((dominioDe correo).head? = some '.' ∨ (dominioDe correo).getLast? = some '.' ∨
    (dominioDe correo).head? = some '-' ∨ (dominioDe correo).getLast? = some '-') &&
  !decide (golen (extensionDe correo) < 2) &&
  (trimSpace correo).all esCaracterCorreo

/-- Go's `unicode.IsDigit` on the ASCII range: '0'-'9'. -/
def esDigito (c : Char) : Bool := decide (48 ≤ c.toNat ∧ c.toNat ≤ 57)

/-- Go `validarTelefono`: exactly 10 bytes, every rune a decimal digit. -/
def validarTelefono (telefono : Str) : Bool :=
  if golen telefono ≠ 10 then false
  else telefono.all esDigito

/-- Go's `unicode.IsUpper` on the ASCII range: 'A'-'Z'. -/
def esMayuscula (c : Char) : Bool := decide (65 ≤ c.toNat ∧ c.toNat ≤ 90)

/-- Go's `unicode.IsLower` on the ASCII range: 'a'-'z'. -/
def esMinuscula (c : Char) : Bool := decide (97 ≤ c.toNat ∧ c.toNat ≤ 122)

/-- The fixed special set `especiales := "@$&"` of `validarPassword`. -/
def especiales : Str := "@$&".toList

/-- Go's `strings.ContainsRune(especiales, c)`. -/
def esEspecial (c : Char) : Bool := especiales.contains c

/-- The four booleans `tieneMayus, tieneMinus, tieneNumero, tieneEspecial`
accumulated by the loop of `validarPassword`. -/
structure FlagsPassword where
  mayus : Bool
  minus : Bool
  numero : Bool
  especial : Bool
deriving DecidableEq, Repr

/-- One iteration of the `switch` in `validarPassword`'s loop: the cases
are tried in source order and only the first matching one fires. -/
def clasificar (f : FlagsPassword) (c : Char) : FlagsPassword :=
  if esMayuscula c then { f with mayus := true }
  else if esMinuscula c then { f with minus := true }
  else if esDigito c then { f with numero := true }
  else if esEspecial c then { f with especial := true }
  else f

/-- Go `validarPassword`: byte length 6-12, then the classifying loop, and
all four flags must have been set. -/
def validarPassword (password : Str) : Bool :=
  if golen password < 6 ∨ 12 < golen password then false
  else
    let f := password.foldl clasificar ⟨false, false, false, false⟩
    f.mayus && f.minus && f.numero && f.especial

/-- Go `Usuario`: one registered identity of the in-memory registry. -/
structure Usuario where
  Correo : Str
  Telefono : Str
  Password : Str
deriving DecidableEq, Repr

/-- Go `RegistroRequest`: the decoded body of a `/registro` request. -/
structure RegistroRequest where
  correo : Str
  telefono : Str
  password : Str
deriving DecidableEq, Repr

/-- Go `LoginRequest`: the decoded body of a `/login` request. -/
structure LoginRequest where
  correo : Str
  password : Str
deriving DecidableEq, Repr

/-- The typed failures of `registroHandler`, one per error response. -/
inductive RegistroError where
  | faltaCorreo
  | faltaTelefono
  | faltaPassword
  | correoInvalido
  | telefonoInvalido
  | passwordInvalido
  | correoDuplicado
  | telefonoDuplicado
deriving DecidableEq, Repr

/-- The duplicate scan of `registroHandler`: one pass over `usuarios` in
insertion order, checking for each stored identity first the email and
then the phone, returning the error of the first match. -/
def buscarDuplicado : List Usuario → RegistroRequest → Option RegistroError
  | [], _ => none
  | u :: us, req =>
    if u.Correo = req.correo then some .correoDuplicado
    else if u.Telefono = req.telefono then some .telefonoDuplicado
    else buscarDuplicado us req

/-- The identity appended by a successful `registroHandler` call: the three
request fields, stored verbatim. -/
def usuarioDe (req : RegistroRequest) : Usuario :=
  ⟨req.correo, req.telefono, req.password⟩

/-- Go `registroHandler` on a decoded body: presence checks in source order,
then the three format validators, then the duplicate scan, and only on full
success the append to `usuarios`.  The result is the typed outcome paired
with the registry after the call. -/
def registroHandler (usuarios : List Usuario) (req : RegistroRequest) :
    Except RegistroError Unit × List Usuario :=
  if req.correo = [] then (.error .faltaCorreo, usuarios)
  else if req.telefono = [] then (.error .faltaTelefono, usuarios)
  else if req.password = [] then (.error .faltaPassword, usuarios)
  else if ¬ validarCorreo req.correo then (.error .correoInvalido, usuarios)
  else if ¬ validarTelefono req.telefono then (.error .telefonoInvalido, usuarios)
  else if ¬ validarPassword req.password then (.error .passwordInvalido, usuarios)
  else
    match buscarDuplicado usuarios req with
    | some e => (.error e, usuarios)
    | none => (.ok (), usuarios ++ [usuarioDe req])

/-- The typed failures of `loginHandler`. -/
inductive LoginError where
  | faltaCorreo
  | faltaPassword
  | credencialesInvalidas
  | errorToken
deriving DecidableEq, Repr

/-- The signing method passed to `jwt.NewWithClaims` (`SigningMethodHS256`). -/
inductive SigningMethod where
  | HS256
deriving DecidableEq, Repr

/-- The `jwt.MapClaims` built by `loginHandler`: exactly the two entries
"correo" (the subject) and "exp" (a Unix timestamp in seconds). -/
structure MapClaims where
  correo : Str
  exp : Int
deriving DecidableEq, Repr

/-- The signed token: `SignedString` is modelled symbolically, the opaque
output being determined by the signing method, the claims and the key. -/
structure Token where
  method : SigningMethod
  claims : MapClaims
  key : Str
deriving DecidableEq, Repr

/-- Go `LoginResponse`: the token together with `fecha_inicio`. -/
structure LoginResponse where
  token : Token
  fechaInicio : Int
deriving DecidableEq, Repr

/-- Go `jwtKey`, the process-wide signing key. -/
def jwtKey : Str := "mi_clave_secreta".toList

/-- The credential scan of `loginHandler`: first stored identity whose
email and password both match the request exactly. -/
def buscarUsuario (usuarios : List Usuario) (req : LoginRequest) : Option Usuario :=
  usuarios.find? (fun u => u.Correo == req.correo && u.Password == req.password)

/-- Go `loginHandler` on a decoded body.  The handler calls `time.Now()`
twice: once (`now1`, seconds) when building the "exp" claim and once
(`now2`) after signing, for `FechaInicio`; both instants are passed in
explicitly.  Signing is modelled symbolically and therefore total, so the
`errorToken` branch of the source is unreachable in the model. -/
def loginHandler (usuarios : List Usuario) (req : LoginRequest)
    (now1 now2 : Int) : Except LoginError LoginResponse :=
  if req.correo = [] then .error .faltaCorreo
  else if req.password = [] then .error .faltaPassword
  else
    match buscarUsuario usuarios req with
    | none => .error .credencialesInvalidas
    | some usuario =>
      .ok ⟨⟨.HS256, ⟨usuario.Correo, now1 + 24 * 3600⟩, jwtKey⟩, now2⟩

/-- One inbound request of a sequential execution: a registration, or a
login (which never mutates the registry). -/
inductive Evento where
  | reg (req : RegistroRequest)
  | login (req : LoginRequest) (now1 now2 : Int)

/-- Effect of one sequentially executed request on the registry. -/
def aplicar (st : List Usuario) : Evento → List Usuario
  | .reg req => (registroHandler st req).2
  | .login _ _ _ => st

/-- Registry reached by a sequence of requests from the empty registry. -/
def ejecutar (evs : List Evento) : List Usuario :=
  evs.foldl aplicar []

/-- The registry invariant of the spec: no two stored identities share an
email, and no two share a phone. -/
def invariante (st : List Usuario) : Prop :=
  st.Pairwise (fun a b => a.Correo ≠ b.Correo ∧ a.Telefono ≠ b.Telefono)

/-! ### Helper lemmas about `golen` and the character classes -/

lemma golen_nil : golen [] = 0 := rfl

lemma golen_cons (c : Char) (t : Str) : golen (c :: t) = utf8Len c + golen t := by
  simp [golen]

lemma utf8Len_of_esDigito (c : Char) (h : esDigito c = true) : utf8Len c = 1 := by
  simp only [esDigito, decide_eq_true_eq] at h
  unfold utf8Len
  rw [if_pos (by omega)]

lemma golen_of_all_esDigito (s : Str) (h : s.all esDigito = true) :
    golen s = s.length := by
  induction s with
  | nil => rfl
  | cons c t ih =>
    rw [List.all_cons, Bool.and_eq_true] at h
    rw [golen_cons, utf8Len_of_esDigito c h.1, ih h.2, List.length_cons]
    omega

lemma esMinuscula_of_esMayuscula (c : Char) (h : esMayuscula c = true) :
    esMinuscula c = false := by
  simp only [esMayuscula, decide_eq_true_eq] at h
  simp only [esMinuscula, decide_eq_false_iff_not]
  omega

lemma esDigito_of_esMayuscula (c : Char) (h : esMayuscula c = true) :
    esDigito c = false := by
  simp only [esMayuscula, decide_eq_true_eq] at h
  simp only [esDigito, decide_eq_false_iff_not]
  omega

lemma esDigito_of_esMinuscula (c : Char) (h : esMinuscula c = true) :
    esDigito c = false := by
  simp only [esMinuscula, decide_eq_true_eq] at h
  simp only [esDigito, decide_eq_false_iff_not]
  omega

lemma esEspecial_cases (c : Char) (h : esEspecial c = true) :
    c = '@' ∨ c = '$' ∨ c = '&' := by
  have he : especiales = ['@', '$', '&'] := rfl
  rw [esEspecial, he] at h
  simpa [List.contains_cons, beq_iff_eq] using h

lemma esEspecial_of_esMayuscula (c : Char) (h : esMayuscula c = true) :
    esEspecial c = false := by
  cases he : esEspecial c
  · rfl
  · rcases esEspecial_cases c he with rfl | rfl | rfl <;> exact absurd h (by decide)

lemma esEspecial_of_esMinuscula (c : Char) (h : esMinuscula c = true) :
    esEspecial c = false := by
  cases he : esEspecial c
  · rfl
  · rcases esEspecial_cases c he with rfl | rfl | rfl <;> exact absurd h (by decide)

lemma esEspecial_of_esDigito (c : Char) (h : esDigito c = true) :
    esEspecial c = false := by
  cases he : esEspecial c
  · rfl
  · rcases esEspecial_cases c he with rfl | rfl | rfl <;> exact absurd h (by decide)

/-! ### The classifying loop of `validarPassword` -/

lemma clasificar_mayus (f : FlagsPassword) (c : Char) :
    (clasificar f c).mayus = (f.mayus || esMayuscula c) := by
  unfold clasificar
  split_ifs with h1 h2 h3 h4 <;>
    simp_all [Bool.not_eq_true]

lemma clasificar_minus (f : FlagsPassword) (c : Char) :
    (clasificar f c).minus = (f.minus || esMinuscula c) := by
  unfold clasificar
  split_ifs with h1 h2 h3 h4 <;>
    simp_all [Bool.not_eq_true, esMinuscula_of_esMayuscula]

lemma clasificar_numero (f : FlagsPassword) (c : Char) :
    (clasificar f c).numero = (f.numero || esDigito c) := by
  unfold clasificar
  split_ifs with h1 h2 h3 h4 <;>
    simp_all [Bool.not_eq_true, esDigito_of_esMayuscula, esDigito_of_esMinuscula]

lemma clasificar_especial (f : FlagsPassword) (c : Char) :
    (clasificar f c).especial = (f.especial || esEspecial c) := by
  unfold clasificar
  split_ifs with h1 h2 h3 h4 <;>
    simp_all [Bool.not_eq_true, esEspecial_of_esMayuscula, esEspecial_of_esMinuscula,
      esEspecial_of_esDigito]

lemma foldl_clasificar_mayus (s : Str) (f : FlagsPassword) :
    (s.foldl clasificar f).mayus = (f.mayus || s.any esMayuscula) := by
  induction s generalizing f with
  | nil => simp
  | cons c t ih =>
    rw [List.foldl_cons, ih, clasificar_mayus, List.any_cons, Bool.or_assoc]

lemma foldl_clasificar_minus (s : Str) (f : FlagsPassword) :
    (s.foldl clasificar f).minus = (f.minus || s.any esMinuscula) := by
  induction s generalizing f with
  | nil => simp
  | cons c t ih =>
    rw [List.foldl_cons, ih, clasificar_minus, List.any_cons, Bool.or_assoc]

lemma foldl_clasificar_numero (s : Str) (f : FlagsPassword) :
    (s.foldl clasificar f).numero = (f.numero || s.any esDigito) := by
  induction s generalizing f with
  | nil => simp
  | cons c t ih =>
    rw [List.foldl_cons, ih, clasificar_numero, List.any_cons, Bool.or_assoc]

lemma foldl_clasificar_especial (s : Str) (f : FlagsPassword) :
    (s.foldl clasificar f).especial = (f.especial || s.any esEspecial) := by
  induction s generalizing f with
  | nil => simp
  | cons c t ih =>
    rw [List.foldl_cons, ih, clasificar_especial, List.any_cons, Bool.or_assoc]

/-! ### `separarEn`, `trimSpace` and counting lemmas -/

lemma separarEn_cons (sep c : Char) (t : Str) :
    separarEn sep (c :: t) =
      if c = sep then [] :: separarEn sep t
      else (c :: (separarEn sep t).headD []) :: (separarEn sep t).tail := rfl

lemma separarEn_length (sep : Char) (l : Str) :
    (separarEn sep l).length = l.count sep + 1 := by
  induction l with
  | nil => rfl
  | cons c t ih =>
    rw [separarEn_cons]
    by_cases h : c = sep
    · rw [if_pos h, List.length_cons, ih, List.count_cons]
      subst h
      simp
    · rw [if_neg h, List.length_cons, List.length_tail, ih, List.count_cons]
      have hb : (c == sep) = false := by simpa using h
      rw [hb]
      simp

lemma count_dropWhile_of_neg (p : Char → Bool) (c : Char) (hc : p c = false) (l : Str) :
    (l.dropWhile p).count c = l.count c := by
  conv_rhs => rw [← List.takeWhile_append_dropWhile (p := p) (l := l)]
  rw [List.count_append]
  have hz : (l.takeWhile p).count c = 0 := by
    refine List.count_eq_zero.2 (fun hmem => ?_)
    have := List.mem_takeWhile_imp hmem
    rw [hc] at this
    cases this
  omega

lemma count_trimSpace (c : Char) (hc : esEspacioGo c = false) (s : Str) :
    (trimSpace s).count c = s.count c := by
  unfold trimSpace
  rw [List.count_reverse, count_dropWhile_of_neg _ _ hc, List.count_reverse,
    count_dropWhile_of_neg _ _ hc]

lemma dropWhile_head?_not (p : Char → Bool) (l : Str) (c : Char)
    (h : (l.dropWhile p).head? = some c) : p c = false := by
  induction l with
  | nil => cases h
  | cons a t ih =>
    by_cases hp : p a
    · rw [List.dropWhile_cons_of_pos hp] at h
      exact ih h
    · rw [List.dropWhile_cons_of_neg hp] at h
      simp only [List.head?_cons, Option.some.injEq] at h
      subst h
      simpa using hp

lemma dropWhile_eq_self_of_head (p : Char → Bool) (l : Str)
    (h : ∀ c, l.head? = some c → p c = false) : l.dropWhile p = l := by
  cases l with
  | nil => rfl
  | cons a t =>
    have := h a rfl
    rw [List.dropWhile_cons_of_neg (by simp [this])]

lemma dropWhile_dropWhile (p : Char → Bool) (l : Str) :
    (l.dropWhile p).dropWhile p = l.dropWhile p :=
  dropWhile_eq_self_of_head p _ (dropWhile_head?_not p l)

lemma recorteDer_head? (p : Char → Bool) (w : Str) (c : Char)
    (h : ((w.reverse.dropWhile p).reverse).head? = some c) : w.head? = some c := by
  have hw : w = (w.reverse.dropWhile p).reverse ++ (w.reverse.takeWhile p).reverse := by
    calc w = w.reverse.reverse := (List.reverse_reverse w).symm
    _ = (w.reverse.takeWhile p ++ w.reverse.dropWhile p).reverse := by
        rw [List.takeWhile_append_dropWhile]
    _ = (w.reverse.dropWhile p).reverse ++ (w.reverse.takeWhile p).reverse := by
        rw [List.reverse_append]
  cases hy : (w.reverse.dropWhile p).reverse with
  | nil => rw [hy] at h; cases h
  | cons a t =>
    rw [hy] at h hw
    simp only [List.head?_cons, Option.some.injEq] at h
    rw [hw, List.cons_append, List.head?_cons, h]

lemma trimSpace_idem (s : Str) : trimSpace (trimSpace s) = trimSpace s := by
  unfold trimSpace
  have h1 : (((s.dropWhile esEspacioGo).reverse.dropWhile esEspacioGo).reverse).dropWhile
      esEspacioGo = ((s.dropWhile esEspacioGo).reverse.dropWhile esEspacioGo).reverse :=
    dropWhile_eq_self_of_head _ _ (fun c hc =>
      dropWhile_head?_not esEspacioGo s c (recorteDer_head? esEspacioGo (s.dropWhile esEspacioGo) c hc))
  rw [h1, List.reverse_reverse, dropWhile_dropWhile]

/-! ### Structural lemmas about the two handlers -/

lemma validarCorreo_ne_nil {s : Str} (h : validarCorreo s = true) : s ≠ [] := by
  rintro rfl
  exact absurd h (by decide)

lemma validarTelefono_ne_nil {s : Str} (h : validarTelefono s = true) : s ≠ [] := by
  rintro rfl
  exact absurd h (by decide)

lemma validarPassword_ne_nil {s : Str} (h : validarPassword s = true) : s ≠ [] := by
  rintro rfl
  exact absurd h (by decide)

lemma registro_cases (st : List Usuario) (req : RegistroRequest) :
    (∃ e, registroHandler st req = (.error e, st)) ∨
    (registroHandler st req = (.ok (), st ++ [usuarioDe req]) ∧
      buscarDuplicado st req = none) := by
  unfold registroHandler
  split_ifs with h1 h2 h3 h4 h5 h6
  any_goals exact .inl ⟨_, rfl⟩
  cases hb : buscarDuplicado st req with
  | some e => exact .inl ⟨e, rfl⟩
  | none => exact .inr ⟨rfl, rfl⟩

lemma registro_valido (st : List Usuario) (req : RegistroRequest)
    (hc : validarCorreo req.correo = true) (ht : validarTelefono req.telefono = true)
    (hp : validarPassword req.password = true) :
    registroHandler st req =
      (match buscarDuplicado st req with
        | some e => (.error e, st)
        | none => (.ok (), st ++ [usuarioDe req])) := by
  unfold registroHandler
  rw [if_neg (validarCorreo_ne_nil hc), if_neg (validarTelefono_ne_nil ht),
    if_neg (validarPassword_ne_nil hp), if_neg (not_not_intro hc),
    if_neg (not_not_intro ht), if_neg (not_not_intro hp)]

lemma buscarDuplicado_none_forall {st : List Usuario} {req : RegistroRequest}
    (h : buscarDuplicado st req = none) :
    ∀ v ∈ st, v.Correo ≠ req.correo ∧ v.Telefono ≠ req.telefono := by
  induction st with
  | nil => intro v hv; cases hv
  | cons u us ih =>
    unfold buscarDuplicado at h
    split_ifs at h with h1 h2
    intro v hv
    rcases List.mem_cons.1 hv with rfl | hv'
    · exact ⟨h1, h2⟩
    · exact ih h v hv'

lemma buscarDuplicado_append_correo (st1 st2 : List Usuario) (u : Usuario)
    (req : RegistroRequest) (hu : u.Correo = req.correo)
    (hprev : ∀ v ∈ st1, v.Telefono ≠ req.telefono) :
    buscarDuplicado (st1 ++ u :: st2) req = some .correoDuplicado := by
  induction st1 with
  | nil => simp [buscarDuplicado, hu]
  | cons v t ih =>
    have hv : v.Telefono ≠ req.telefono := hprev v (by simp)
    by_cases hvc : v.Correo = req.correo
    · simp [buscarDuplicado, hvc]
    · rw [List.cons_append]
      unfold buscarDuplicado
      rw [if_neg hvc, if_neg hv]
      exact ih (fun w hw => hprev w (by simp [hw]))

lemma login_ok_inv {usuarios : List Usuario} {req : LoginRequest} {now1 now2 : Int}
    {resp : LoginResponse} (h : loginHandler usuarios req now1 now2 = .ok resp) :
    ∃ u, buscarUsuario usuarios req = some u ∧
      resp = ⟨⟨.HS256, ⟨u.Correo, now1 + 24 * 3600⟩, jwtKey⟩, now2⟩ := by
  unfold loginHandler at h
  split_ifs at h with h1 h2
  any_goals simp at h
  cases hb : buscarUsuario usuarios req with
  | none => rw [hb] at h; simp at h
  | some u =>
    rw [hb] at h
    simp only [Except.ok.injEq] at h
    exact ⟨u, rfl, h.symm⟩

/-! ### Sequential executions and the registry invariant -/

lemma invariante_preservada (st : List Usuario) (req : RegistroRequest)
    (h : invariante st) : invariante ((registroHandler st req).2) := by
  rcases registro_cases st req with ⟨e, he⟩ | ⟨he, hb⟩
  · rw [he]; exact h
  · rw [he]
    have hforall := buscarDuplicado_none_forall hb
    refine List.pairwise_append.2 ⟨h, List.pairwise_singleton _ _, ?_⟩
    intro a ha b hbmem
    rcases List.mem_singleton.1 hbmem with rfl
    exact hforall a ha

lemma invariante_foldl (evs : List Evento) :
    ∀ st, invariante st → invariante (evs.foldl aplicar st) := by
  induction evs with
  | nil => exact fun st h => h
  | cons e t ih =>
    intro st h
    rw [List.foldl_cons]
    apply ih
    cases e with
    | reg req => exact invariante_preservada st req h
    | login req n1 n2 => exact h

/-! ### The unsynchronized check-then-insert race of `registroHandler`

The Go handlers run concurrently under `net/http` and the shared slice
`usuarios` is read (the duplicate scan) and written (the `append`) with no
lock.  The model below splits one handler invocation into its two shared
accesses: `revisa` performs the validations and the duplicate scan on the
current registry and records the decision, `inserta` performs the pending
append.  A schedule is a list of these atomic accesses of two invocations. -/

/-- Shared state of two in-flight `registroHandler` invocations: the
registry, plus whether each invocation has passed its duplicate check and
has its insert still pending. -/
structure EstadoCarrera where
  usuarios : List Usuario
  pendiente1 : Bool
  pendiente2 : Bool
deriving DecidableEq, Repr

/-- One atomic shared access of invocation 1 or 2. -/
inductive PasoCarrera where
  | revisa1
  | revisa2
  | inserta1
  | inserta2

/-- The checks of `registroHandler` up to and including the duplicate scan,
as read against a registry snapshot: presence, the three validators, and
absence of a duplicate. -/
def pasaChecks (usuarios : List Usuario) (req : RegistroRequest) : Bool :=
  !req.correo.isEmpty && !req.telefono.isEmpty && !req.password.isEmpty &&
  validarCorreo req.correo && validarTelefono req.telefono &&
  validarPassword req.password && (buscarDuplicado usuarios req).isNone

/-- Effect of one atomic access on the shared state. -/
def pasoCarrera (r1 r2 : RegistroRequest) (st : EstadoCarrera) :
    PasoCarrera → EstadoCarrera
  | .revisa1 =>
    if pasaChecks st.usuarios r1 then { st with pendiente1 := true } else st
  | .revisa2 =>
    if pasaChecks st.usuarios r2 then { st with pendiente2 := true } else st
  | .inserta1 =>
    if st.pendiente1 then
      { st with usuarios := st.usuarios ++ [usuarioDe r1], pendiente1 := false }
    else st
  | .inserta2 =>
    if st.pendiente2 then
      { st with usuarios := st.usuarios ++ [usuarioDe r2], pendiente2 := false }
    else st

/-- Run a schedule of the two invocations from the empty registry. -/
def ejecutaCarrera (r1 r2 : RegistroRequest) (pasos : List PasoCarrera) : EstadoCarrera :=
  pasos.foldl (pasoCarrera r1 r2) ⟨[], false, false⟩

/-! ### Fixtures used by the concrete instances -/

/-- A well-formed registration request (the spec's end-to-end example). -/
def reqEjemplo : RegistroRequest :=
  ⟨"a@b.com".toList, "5551234567".toList, "Pass123@".toList⟩

/-- The identity stored by a successful registration of `reqEjemplo`. -/
def usuarioEjemplo : Usuario := usuarioDe reqEjemplo

/-- An identity sharing `reqEjemplo`'s phone but not its email. -/
def usuarioOtro : Usuario := ⟨"x@y.com".toList, "5551234567".toList, "Aa1@aa".toList⟩

/-- An identity sharing `reqEjemplo`'s email but not its phone. -/
def usuarioCorreoIgual : Usuario :=
  ⟨"a@b.com".toList, "5559999999".toList, "Aa1@aa".toList⟩

/-- A well-formed registration request whose email carries surrounding
whitespace. -/
def reqEspacios : RegistroRequest :=
  ⟨" a@b.co ".toList, "5550001111".toList, "Aa1@aa".toList⟩

/-- The login response produced for `usuarioEjemplo` at instants 5 and 9. -/
def respEjemplo : LoginResponse :=
  ⟨⟨.HS256, ⟨usuarioEjemplo.Correo, 5 + 24 * 3600⟩, jwtKey⟩, 9⟩

/-! ### Extraction lemma for the email validator -/

lemma validarCorreo_spec (s : Str) (h : validarCorreo s = true) :
    (separarEn '@' (trimSpace s)).length = 2 ∧ 2 ≤ golen (extensionDe s) := by
  unfold validarCorreo at h
  simp only [Bool.and_eq_true, Bool.not_eq_true', decide_eq_false_iff_not, and_assoc] at h
  obtain ⟨h1, h2, h3, h4, h5, h6, h7, h8, h9, h10⟩ := h
  exact ⟨by omega, by omega⟩

/-! ### Claims -/

/-- C1 (counterexample): the duplicate scan is a single interleaved loop,
not an email pass followed by a phone pass.  Here the registry holds an
identity with the request's phone before the identity with the request's
email, the request is well formed, the email is registered — and yet the
handler answers DuplicatePhone, not DuplicateEmail. -/
theorem c1_contraejemplo :
    ([usuarioOtro, usuarioCorreoIgual].any (fun u => u.Correo == reqEjemplo.correo)) = true ∧
    validarCorreo reqEjemplo.correo = true ∧
    validarTelefono reqEjemplo.telefono = true ∧
    validarPassword reqEjemplo.password = true ∧
    registroHandler [usuarioOtro, usuarioCorreoIgual] reqEjemplo =
      (.error .telefonoDuplicado, [usuarioOtro, usuarioCorreoIgual]) :=
  ⟨rfl, rfl, rfl, rfl, rfl⟩

/-- C1 (amended): for a well-formed request whose email is stored,
DuplicateEmail is answered provided no identity inserted before the
email-matching one carries the request's phone; the registry is unchanged. -/
theorem c1_duplicado_por_orden (st1 st2 : List Usuario) (u : Usuario)
    (req : RegistroRequest) (hc : validarCorreo req.correo = true)
    (ht : validarTelefono req.telefono = true) (hp : validarPassword req.password = true)
    (hu : u.Correo = req.correo) (hprev : ∀ v ∈ st1, v.Telefono ≠ req.telefono) :
    registroHandler (st1 ++ u :: st2) req =
      (.error .correoDuplicado, st1 ++ u :: st2) := by
  rw [registro_valido _ _ hc ht hp, buscarDuplicado_append_correo st1 st2 u req hu hprev]

/-- C1 (witness): the amended claim at a concrete registry and request. -/
theorem c1_witness :
    registroHandler ([] ++ usuarioCorreoIgual :: []) reqEjemplo =
      (.error .correoDuplicado, [] ++ usuarioCorreoIgual :: []) :=
  c1_duplicado_por_orden [] [] usuarioCorreoIgual reqEjemplo rfl rfl rfl rfl
    (fun v hv => absurd hv (List.not_mem_nil v))

/-- C2: every sequence of registrations and logins executed sequentially
from the empty registry keeps the registry free of duplicate emails and
duplicate phones. -/
theorem c2_invariante_registro (evs : List Evento) : invariante (ejecutar evs) :=
  invariante_foldl evs [] List.Pairwise.nil

/-- C3: the password validator accepts exactly the strings of (byte)
length 6 to 12 containing an upper-case letter, a lower-case letter, a
decimal digit, and one of the three special characters `@`, `$`, `&`. -/
theorem c3_validarPassword_iff (s : Str) :
    validarPassword s = true ↔
      (6 ≤ golen s ∧ golen s ≤ 12 ∧ s.any esMayuscula = true ∧
        s.any esMinuscula = true ∧ s.any esDigito = true ∧ s.any esEspecial = true) := by
  unfold validarPassword
  split_ifs with h
  · simp only [false_iff]
    rintro ⟨hl, hh, -⟩
    omega
  · push_neg at h
    have hm := foldl_clasificar_mayus s ⟨false, false, false, false⟩
    have hmi := foldl_clasificar_minus s ⟨false, false, false, false⟩
    have hn := foldl_clasificar_numero s ⟨false, false, false, false⟩
    have he := foldl_clasificar_especial s ⟨false, false, false, false⟩
    simp only [Bool.false_or] at hm hmi hn he
    simp only [Bool.and_eq_true, hm, hmi, hn, he]
    constructor
    · rintro ⟨⟨⟨h1, h2⟩, h3⟩, h4⟩
      exact ⟨h.1, h.2, h1, h2, h3, h4⟩
    · rintro ⟨-, -, h1, h2, h3, h4⟩
      exact ⟨⟨⟨h1, h2⟩, h3⟩, h4⟩

/-- C3 (witness): the spec's sample password `Pass123@`. -/
theorem c3_witness :
    validarPassword "Pass123@".toList = true ∧ 6 ≤ golen "Pass123@".toList ∧
    golen "Pass123@".toList ≤ 12 ∧ "Pass123@".toList.any esMayuscula = true ∧
    "Pass123@".toList.any esMinuscula = true ∧ "Pass123@".toList.any esDigito = true ∧
    "Pass123@".toList.any esEspecial = true := by
  have h := (c3_validarPassword_iff "Pass123@".toList).1 rfl
  exact ⟨rfl, h.1, h.2.1, h.2.2.1, h.2.2.2.1, h.2.2.2.2.1, h.2.2.2.2.2⟩

/-- C4: a failing registration (for any of the typed errors) leaves the
registry untouched, and a successful one appends exactly the identity
built verbatim from the request's three fields. -/
theorem c4_solo_exito_inserta (st : List Usuario) (req : RegistroRequest) :
    (∀ e, (registroHandler st req).1 = .error e → (registroHandler st req).2 = st) ∧
    ((registroHandler st req).1 = .ok () →
      (registroHandler st req).2 = st ++ [usuarioDe req]) := by
  rcases registro_cases st req with ⟨e, he⟩ | ⟨he, -⟩
  · rw [he]
    exact ⟨fun _ _ => rfl, fun hx => absurd hx (by simp)⟩
  · rw [he]
    exact ⟨fun e' hx => absurd hx (by simp), fun _ => rfl⟩

/-- C4 (witness): a rejected request leaves the registry empty, an accepted
one appends its identity. -/
theorem c4_witness :
    (registroHandler [] (⟨[], [], []⟩ : RegistroRequest)).2 = [] ∧
    (registroHandler [] reqEjemplo).2 = [] ++ [usuarioDe reqEjemplo] :=
  ⟨(c4_solo_exito_inserta [] ⟨[], [], []⟩).1 .faltaCorreo rfl,
   (c4_solo_exito_inserta [] reqEjemplo).2 rfl⟩

/-- C5: every string the email validator accepts contains exactly one '@',
and the extension after the last dot of the domain has (byte) length at
least 2. -/
theorem c5_forma_correo (s : Str) (h : validarCorreo s = true) :
    s.count '@' = 1 ∧ 2 ≤ golen (extensionDe s) := by
  obtain ⟨hl, he⟩ := validarCorreo_spec s h
  refine ⟨?_, he⟩
  have hsep := separarEn_length '@' (trimSpace s)
  have hct := count_trimSpace '@' (by decide) s
  omega

/-- C5 (witness): the accepted address `a@b.co`. -/
theorem c5_witness :
    validarCorreo "a@b.co".toList = true ∧
    "a@b.co".toList.count '@' = 1 ∧ 2 ≤ golen (extensionDe "a@b.co".toList) := by
  have h := c5_forma_correo "a@b.co".toList rfl
  exact ⟨rfl, h.1, h.2⟩

/-- C6: the phone validator accepts exactly the strings of ten characters
all of which are ASCII digits. -/
theorem c6_validarTelefono_iff (s : Str) :
    validarTelefono s = true ↔ (s.length = 10 ∧ s.all esDigito = true) := by
  unfold validarTelefono
  split_ifs with h
  · simp only [false_iff]
    rintro ⟨hl, hd⟩
    exact h (by rw [golen_of_all_esDigito s hd, hl])
  · push_neg at h
    constructor
    · intro hd
      exact ⟨by rw [← golen_of_all_esDigito s hd]; exact h, hd⟩
    · exact fun hr => hr.2

/-- C6 (witness): the spec's sample phone number. -/
theorem c6_witness :
    validarTelefono "5551234567".toList = true ∧ "5551234567".toList.length = 10 ∧
    "5551234567".toList.all esDigito = true :=
  ⟨(c6_validarTelefono_iff "5551234567".toList).2 ⟨rfl, rfl⟩, rfl, rfl⟩

/-- C7 (counterexample): the handler reads the clock twice — the "exp"
claim is built from the first reading, `FechaInicio` from the second, after
signing.  With readings 0 and 1 the expiry (86400) is not the returned
issuance timestamp plus 24 hours (86401). -/
theorem c7_contraejemplo :
    loginHandler [usuarioEjemplo] ⟨usuarioEjemplo.Correo, usuarioEjemplo.Password⟩ 0 1 =
      .ok ⟨⟨.HS256, ⟨usuarioEjemplo.Correo, 86400⟩, jwtKey⟩, 1⟩ ∧
    (86400 : Int) ≠ 1 + 24 * 3600 :=
  ⟨rfl, by decide⟩

/-- C7 (amended): every successful login issues an HS256-signed token whose
claims are exactly the matched identity's email and an expiry equal to the
clock reading taken when the claims were built plus 24 hours; the issuance
timestamp returned alongside is a second, later clock reading. -/
theorem c7_token_hs256 (usuarios : List Usuario) (req : LoginRequest)
    (now1 now2 : Int) (resp : LoginResponse)
    (h : loginHandler usuarios req now1 now2 = .ok resp) :
    ∃ u, buscarUsuario usuarios req = some u ∧
      resp.token.method = .HS256 ∧
      resp.token.claims = ⟨u.Correo, now1 + 24 * 3600⟩ ∧
      resp.token.key = jwtKey ∧
      resp.fechaInicio = now2 := by
  obtain ⟨u, hu, rfl⟩ := login_ok_inv h
  exact ⟨u, hu, rfl, rfl, rfl, rfl⟩

/-- C7 (witness): the amended claim at a concrete login at instants 5, 9. -/
theorem c7_witness :
    buscarUsuario [usuarioEjemplo] ⟨usuarioEjemplo.Correo, usuarioEjemplo.Password⟩ =
      some usuarioEjemplo ∧
    respEjemplo.token.method = .HS256 ∧
    respEjemplo.token.claims = ⟨usuarioEjemplo.Correo, 5 + 24 * 3600⟩ ∧
    respEjemplo.token.key = jwtKey ∧ respEjemplo.fechaInicio = 9 := by
  obtain ⟨u, hu, h1, h2, h3, h4⟩ :=
    c7_token_hs256 [usuarioEjemplo] ⟨usuarioEjemplo.Correo, usuarioEjemplo.Password⟩
      5 9 respEjemplo rfl
  have heval : buscarUsuario [usuarioEjemplo]
      ⟨usuarioEjemplo.Correo, usuarioEjemplo.Password⟩ = some usuarioEjemplo := rfl
  rw [heval] at hu
  cases hu
  exact ⟨heval, h1, h2, h3, h4⟩

/-- C8: when no stored identity matches both email and password exactly,
login fails with the single generic InvalidCredentials value — the same
value whether the email is unknown or only the password differs. -/
theorem c8_credenciales_invalidas (st : List Usuario) (req : LoginRequest)
    (now1 now2 : Int) (h1 : req.correo ≠ []) (h2 : req.password ≠ [])
    (h : buscarUsuario st req = none) :
    loginHandler st req now1 now2 = .error .credencialesInvalidas := by
  unfold loginHandler
  rw [if_neg h1, if_neg h2, h]

/-- C8 (witness): a wrong password and a never-registered email produce the
identical failure. -/
theorem c8_witness :
    loginHandler [usuarioEjemplo] ⟨usuarioEjemplo.Correo, "wrong1@".toList⟩ 0 0 =
      .error .credencialesInvalidas ∧
    loginHandler [usuarioEjemplo] ⟨"nadie@b.com".toList, "Pass123@".toList⟩ 0 0 =
      .error .credencialesInvalidas :=
  ⟨c8_credenciales_invalidas _ _ 0 0 (by decide) (by decide) rfl,
   c8_credenciales_invalidas _ _ 0 0 (by decide) (by decide) rfl⟩

/-- C9: the source has no lock around the duplicate-check-then-insert
sequence; with the two shared accesses of each invocation interleaved
check-check-insert-insert, two registrations of the identical valid request
both pass the duplicate check against the empty registry and both insert,
leaving two identities with the same email — the claimed atomicity does not
hold in the code. -/
theorem c9_carrera_sin_exclusion :
    (ejecutaCarrera reqEjemplo reqEjemplo
        [.revisa1, .revisa2, .inserta1, .inserta2]).usuarios =
      [usuarioDe reqEjemplo, usuarioDe reqEjemplo] ∧
    ((ejecutaCarrera reqEjemplo reqEjemplo
        [.revisa1, .revisa2, .inserta1, .inserta2]).usuarios.filter
          (fun u => u.Correo == reqEjemplo.correo)).length = 2 ∧
    ¬ invariante (ejecutaCarrera reqEjemplo reqEjemplo
        [.revisa1, .revisa2, .inserta1, .inserta2]).usuarios := by
  have heq : (ejecutaCarrera reqEjemplo reqEjemplo
      [.revisa1, .revisa2, .inserta1, .inserta2]).usuarios =
      [usuarioDe reqEjemplo, usuarioDe reqEjemplo] := rfl
  refine ⟨heq, rfl, ?_⟩
  rw [heq]
  intro hinv
  rcases List.pairwise_cons.1 hinv with ⟨hrel, -⟩
  exact (hrel _ (List.mem_cons_self _ _)).1 rfl

/-- C10: the email validator is invariant under trimming its input, and a
successful registration stores the submitted email verbatim, surrounding
whitespace included. -/
theorem c10_trim_y_verbatim :
    (∀ s : Str, validarCorreo s = validarCorreo (trimSpace s)) ∧
    (∀ (st : List Usuario) (req : RegistroRequest),
      (registroHandler st req).1 = .ok () →
      (registroHandler st req).2 = st ++ [usuarioDe req]) := by
  constructor
  · intro s
    simp only [validarCorreo, extensionDe, parteLocalDe, dominioDe, trimSpace_idem]
  · intro st req h
    rcases registro_cases st req with ⟨e, he⟩ | ⟨he, -⟩
    · rw [he] at h
      exact absurd h (by simp)
    · rw [he]

/-- C10 (witness): the whitespace-surrounded address ` a@b.co ` is accepted
and stored exactly as submitted. -/
theorem c10_witness :
    validarCorreo " a@b.co ".toList = validarCorreo (trimSpace " a@b.co ".toList) ∧
    validarCorreo " a@b.co ".toList = true ∧
    (registroHandler [] reqEspacios).2 = [] ++ [usuarioDe reqEspacios] :=
  ⟨c10_trim_y_verbatim.1 _, rfl, c10_trim_y_verbatim.2 [] reqEspacios rfl⟩
